import Mathlib

/-!
Shallow embedding of the Bybit trading bot (`trade_executor.py`, `config.py`,
`app.py`).  Exchange-network effects are modelled by a `Gateway` oracle of
`Except`-valued responses; every executor operation returns its result, the
updated `AccountState`, and the ordered list of Gateway calls it performed.
Prices and sizes are rationals (Python floats in the source).
-/

namespace TradingBot

/-- Mirror of `config.py` `AccountConfig` (credentials and testnet flag omitted:
they only parameterize the Gateway handle). -/
structure AccountConfig where
  risk_percentage : ℚ
  leverage : Int
  profit_lock_threshold : ℚ
  monitoring_active : Bool
  initial_sl_percentage : ℚ
  initial_tp_percentage : ℚ
  balance_threshold : ℚ
  deriving DecidableEq, Repr

/-- A position as fetched from `exchange.fetch_positions` (ccxt fields
used by the source: `symbol`, `side`, `contracts`, `entryPrice`,
`markPrice`, `unrealizedPnl`). -/
structure Position where
  symbol : String
  side : String
  contracts : ℚ
  entryPrice : ℚ
  markPrice : ℚ
  unrealizedPnl : ℚ
  deriving DecidableEq, Repr

/-- Entry of `profit_locks[symbol]` built by `_record_profit_lock`. -/
structure ProfitLockEvent where
  timestamp : String
  profit_percentage : ℚ
  deriving DecidableEq, Repr

/-- Entry of `trade_history` built by `_log_trade` in `place_order`. -/
structure TradeRecordData where
  timestamp : String
  symbol : String
  side : String
  size : ℚ
  entry_price : ℚ
  tp_price : ℚ
  sl_price : ℚ
  order : String
  deriving DecidableEq, Repr

/-- Argument record of an `exchange.create_order` /
`exchange.create_market_order` call. -/
structure OrderReq where
  symbol : String
  otype : String
  side : String
  amount : ℚ
  price : Option ℚ
  takeProfit : Option ℚ
  stopLoss : Option ℚ
  triggerPrice : Option ℚ
  reduceOnly : Bool
  triggerBy : Option String
  deriving DecidableEq, Repr

/-- One Exchange Gateway invocation (for call-trace reasoning). -/
inductive GCall where
  | fetchBalance : GCall
  | fetchTicker (symbol : String) : GCall
  | fetchPositions (symbols : Option (List String)) : GCall
  | setLeverage (leverage : Int) (symbol : String) : GCall
  | createOrder (req : OrderReq) : GCall
  deriving DecidableEq, Repr

/-- Oracle for the ccxt exchange client: each field gives the response the
exchange would return to the corresponding call (`Except.error` models a
raised exception). -/
structure Gateway where
  fetchBalance : Except String ℚ
  fetchTicker : String → Except String ℚ
  fetchPositionsAll : Except String (List Position)
  fetchPositionsFor : String → Except String (List Position)
  amountToPrecision : String → ℚ → Except String ℚ
  priceToPrecision : String → ℚ → ℚ
  createOrder : OrderReq → Except String String

/-- Mutable per-account state owned by `BybitTradeExecutor`. -/
structure AccountState where
  trading_enabled : Bool
  monitoring_active : Bool
  trade_history : List TradeRecordData
  failed_trades : List TradeRecordData
  closed_trades : List TradeRecordData
  profit_locks : List (String × List ProfitLockEvent)
  total_profit_locks : Nat
  deriving DecidableEq, Repr

/-- Dict-style result of `place_order`. -/
structure OrderResult where
  status : String
  message : Option String := none
  order : Option String := none
  deriving DecidableEq, Repr

/-- State initialization of `BybitTradeExecutor.__init__`. -/
def initState (cfg : AccountConfig) : AccountState :=
  { trading_enabled := true
    monitoring_active := cfg.monitoring_active
    trade_history := []
    failed_trades := []
    closed_trades := []
    profit_locks := []
    total_profit_locks := 0 }

/-- Request submitted by `close_all_positions` for one position: a
reduce-only market order on the side opposite the position, for the
absolute size of the position. -/
def flattenOrderReq (p : Position) : OrderReq :=
  { symbol := p.symbol
    otype := "market"
    side := if p.side = "buy" then "sell" else "buy"
    amount := |p.contracts|
    price := none
    takeProfit := none
    stopLoss := none
    triggerPrice := none
    reduceOnly := true
    triggerBy := none }

/-- The `for position in positions` loop of `close_all_positions`: a
nonzero position gets a flatten order; a raised order error aborts the
loop (the surrounding `try` catches it after the partial run). -/
def closeLoop (gw : Gateway) : List Position → List GCall
  | [] => []
  | p :: rest =>
    if |p.contracts| > 0 then
      match gw.createOrder (flattenOrderReq p) with
      | .error _ => [GCall.createOrder (flattenOrderReq p)]
      | .ok _ => GCall.createOrder (flattenOrderReq p) :: closeLoop gw rest
    else closeLoop gw rest

/-- Model of `close_all_positions`: fetch all positions and flatten each nonzero
one; every exception is caught and only logged, so the caller always
continues. Returns the Gateway calls performed. -/
def close_all_positions (gw : Gateway) : List GCall :=
  match gw.fetchPositionsAll with
  | .error _ => [GCall.fetchPositions none]
  | .ok positions => GCall.fetchPositions none :: closeLoop gw positions

/-- Model of `get_wallet_balance`: fetch the USDT total; if it is strictly below
`balance_threshold`, run `close_all_positions` and then set
`trading_enabled := false`; either way return the balance.  A fetch
failure is re-raised. -/
def get_wallet_balance (gw : Gateway) (cfg : AccountConfig) (s : AccountState) :
    Except String ℚ × AccountState × List GCall :=
  match gw.fetchBalance with
  | .error e => (.error e, s, [GCall.fetchBalance])
  | .ok total_balance =>
    if total_balance < cfg.balance_threshold then
      (.ok total_balance, { s with trading_enabled := false },
        GCall.fetchBalance :: close_all_positions gw)
    else
      (.ok total_balance, s, [GCall.fetchBalance])

/-- Model of `set_leverage`: one Gateway call; every error is swallowed (logged
only), so the operation never fails. -/
def set_leverage (cfg : AccountConfig) (symbol : String) : List GCall :=
  [GCall.setLeverage cfg.leverage symbol]

/-- Model of `calculate_position_size`: balance, last price, risk-based raw size,
market-precision rounding.  Any underlying failure propagates. -/
def calculate_position_size (gw : Gateway) (cfg : AccountConfig) (s : AccountState)
    (symbol : String) (multiply_factor : ℚ) :
    Except String (ℚ × ℚ) × AccountState × List GCall :=
  match get_wallet_balance gw cfg s with
  | (.error e, s1, c1) => (.error e, s1, c1)
  | (.ok balance, s1, c1) =>
    match gw.fetchTicker symbol with
    | .error e => (.error e, s1, c1 ++ [GCall.fetchTicker symbol])
    | .ok current_price =>
      match gw.amountToPrecision symbol
          (balance * (cfg.risk_percentage / 100) * (cfg.leverage : ℚ) /
            current_price * multiply_factor) with
      | .error e => (.error e, s1, c1 ++ [GCall.fetchTicker symbol])
      | .ok position_size =>
        (.ok (position_size, current_price), s1, c1 ++ [GCall.fetchTicker symbol])

/-- Model of `check_existing_position`: first fetched position on the symbol whose
absolute size exceeds the 0.00001 dust threshold; a fetch failure is
re-raised. -/
def check_existing_position (gw : Gateway) (symbol : String) :
    Except String (Option Position) × List GCall :=
  match gw.fetchPositionsFor symbol with
  | .error e => (.error e, [GCall.fetchPositions (some [symbol])])
  | .ok positions =>
    (.ok (positions.find? (fun p => decide ((1 : ℚ)/100000 < |p.contracts|))),
      [GCall.fetchPositions (some [symbol])])

/-- Python `str.lower()` on the ASCII side strings used here. -/
def strLower (s : String) : String := ⟨s.data.map Char.toLower⟩

/-- Model of `is_opposite_side`. -/
def is_opposite_side (existing_position : Position) (new_side : String) : Bool :=
  (existing_position.side == "buy" && strLower new_side == "sell") ||
  (existing_position.side == "sell" && strLower new_side == "buy")

/-- The `position_multiplier` expression of `place_order` line 126. -/
def positionMultiplier (existing_position : Option Position) (side : String) : ℚ :=
  match existing_position with
  | some p => if is_opposite_side p side then 2 else 1
  | none => 1

/-- Take-profit price of `place_order` lines 135-136. -/
def tpPrice (cfg : AccountConfig) (side : String) (entry_price : ℚ) : ℚ :=
  if strLower side = "buy" then entry_price * (1 + cfg.initial_tp_percentage)
  else entry_price * (1 - cfg.initial_tp_percentage)

/-- Stop-loss price of `place_order` lines 137-138. -/
def slPrice (cfg : AccountConfig) (side : String) (entry_price : ℚ) : ℚ :=
  if strLower side = "buy" then entry_price * (1 - cfg.initial_sl_percentage)
  else entry_price * (1 + cfg.initial_sl_percentage)

/-- The market-order request of `place_order` lines 141-153. -/
def entryOrderReq (gw : Gateway) (cfg : AccountConfig) (symbol side : String)
    (position_size entry_price : ℚ) : OrderReq :=
  { symbol := symbol
    otype := "market"
    side := strLower side
    amount := position_size
    price := none
    takeProfit := some (gw.priceToPrecision symbol (tpPrice cfg side entry_price))
    stopLoss := some (gw.priceToPrecision symbol (slPrice cfg side entry_price))
    triggerPrice := none
    reduceOnly := false
    triggerBy := none }

/-- The trade dict `_log_trade` appends on success. -/
def logRecord (now symbol side : String) (position_size entry_price tp sl : ℚ)
    (order : String) : TradeRecordData :=
  { timestamp := now, symbol := symbol, side := side, size := position_size,
    entry_price := entry_price, tp_price := tp, sl_price := sl, order := order }

/-- Model of `place_order`: gate check, existing-position probe, leverage, sizing,
bracket prices, submission, `_log_trade` on success.  Any exception is
caught and turned into an error result; nothing is ever appended to
`failed_trades` (the source never writes that list). -/
def place_order (now : String) (gw : Gateway) (cfg : AccountConfig) (s : AccountState)
    (symbol side : String) : OrderResult × AccountState × List GCall :=
  if s.trading_enabled = false then
    ({ status := "error", message := some "Trading is disabled" }, s, [])
  else
    match check_existing_position gw symbol with
    | (.error e, c1) => ({ status := "error", message := some e }, s, c1)
    | (.ok existing_position, c1) =>
      match calculate_position_size gw cfg s symbol
          (positionMultiplier existing_position side) with
      | (.error e, s2, c3) =>
        ({ status := "error", message := some e }, s2,
          c1 ++ set_leverage cfg symbol ++ c3)
      | (.ok (position_size, entry_price), s2, c3) =>
        match gw.createOrder (entryOrderReq gw cfg symbol side position_size entry_price) with
        | .error e =>
          ({ status := "error", message := some e }, s2,
            c1 ++ set_leverage cfg symbol ++ c3 ++
              [GCall.createOrder (entryOrderReq gw cfg symbol side position_size entry_price)])
        | .ok order =>
          ({ status := "success", order := some order },
            { s2 with trade_history := s2.trade_history ++
              [logRecord now symbol side position_size entry_price
                (tpPrice cfg side entry_price) (slPrice cfg side entry_price) order] },
            c1 ++ set_leverage cfg symbol ++ c3 ++
              [GCall.createOrder (entryOrderReq gw cfg symbol side position_size entry_price)])

/-- The `profit_percentage` of `monitor_positions_profit` line 199
(`position_size` is the absolute contract count). -/
def profitPercentage (cfg : AccountConfig) (p : Position) : ℚ :=
  (p.unrealizedPnl / (p.entryPrice * |p.contracts|)) * 100 * (cfg.leverage : ℚ)

/-- New trailing stop of `update_stop_loss` line 219. -/
def newStopPrice (p : Position) : ℚ :=
  if p.side = "buy" then p.markPrice * (99/100) else p.markPrice * (1001/1000)

/-- The stop-order request of `update_stop_loss` lines 221-232. -/
def stopOrderReq (gw : Gateway) (p : Position) : OrderReq :=
  { symbol := p.symbol
    otype := "stop"
    side := if p.side = "buy" then "sell" else "buy"
    amount := |p.contracts|
    price := some (gw.priceToPrecision p.symbol (newStopPrice p))
    takeProfit := none
    stopLoss := none
    triggerPrice := some (newStopPrice p)
    reduceOnly := true
    triggerBy := some "MarkPrice" }

/-- Model of `update_stop_loss`: one stop-order submission; any error is caught
and only logged, so control always returns to the monitor loop. -/
def update_stop_loss (gw : Gateway) (p : Position) : List GCall :=
  [GCall.createOrder (stopOrderReq gw p)]

/-- Append an event under a symbol key, creating the key at the end of the
mapping when absent (`_record_profit_lock` lines 240-246; Python dicts keep
insertion order). -/
def addLock : List (String × List ProfitLockEvent) → String → ProfitLockEvent →
    List (String × List ProfitLockEvent)
  | [], symbol, e => [(symbol, [e])]
  | (k, es) :: rest, symbol, e =>
    if k = symbol then (k, es ++ [e]) :: rest
    else (k, es) :: addLock rest symbol e

/-- Model of `_record_profit_lock`: append one event under the symbol key and
increment `total_profit_locks` by one. -/
def record_profit_lock (now : String) (s : AccountState) (symbol : String)
    (profit_percentage : ℚ) : AccountState :=
  { s with
    profit_locks := addLock s.profit_locks symbol ⟨now, profit_percentage⟩
    total_profit_locks := s.total_profit_locks + 1 }

/-- The `for position in positions` body of `monitor_positions_profit`:
skip dust positions; above the threshold, submit the trailing stop and
record the profit lock. -/
def processPositions (now : String) (gw : Gateway) (cfg : AccountConfig) :
    AccountState → List Position → AccountState × List GCall
  | s, [] => (s, [])
  | s, p :: rest =>
    if |p.contracts| ≤ (1 : ℚ)/100000 then
      processPositions now gw cfg s rest
    else
      if profitPercentage cfg p ≥ cfg.profit_lock_threshold * 100 then
        let c := update_stop_loss gw p
        let s1 := record_profit_lock now s p.symbol (profitPercentage cfg p)
        let (s2, cs) := processPositions now gw cfg s1 rest
        (s2, c ++ cs)
      else
        processPositions now gw cfg s rest

/-- One iteration of the `while self.monitoring_active` loop of
`monitor_positions_profit`; a fetch failure is caught and leaves the
state unchanged (the loop sleeps and retries). -/
def monitor_iteration (now : String) (gw : Gateway) (cfg : AccountConfig)
    (s : AccountState) : AccountState × List GCall :=
  match gw.fetchPositionsAll with
  | .error _ => (s, [GCall.fetchPositions none])
  | .ok positions =>
    let (s1, cs) := processPositions now gw cfg s positions
    (s1, GCall.fetchPositions none :: cs)

/-- The `control_account` action `pause` (app.py line 213). -/
def pauseTrading (s : AccountState) : AccountState :=
  { s with trading_enabled := false }

/-- The `control_account` action `resume` (app.py line 216). -/
def resumeTrading (s : AccountState) : AccountState :=
  { s with trading_enabled := true }

/-- The `control_account` action `toggle_monitor` (app.py line 219): it only
negates the flag. -/
def toggleMonitoring (s : AccountState) : AccountState :=
  { s with monitoring_active := !s.monitoring_active }

/-- Executor state together with whether its monitor thread is alive
(i.e. the `while` loop of `monitor_positions_profit` is still running). -/
structure MonitorSystem where
  exec : AccountState
  thread_running : Bool
  deriving DecidableEq, Repr

/-- Per `__init__` lines 34-36: the monitor thread is spawned at construction
iff the monitoring flag of the config is set. -/
def initExecutor (cfg : AccountConfig) : MonitorSystem :=
  { exec := initState cfg, thread_running := cfg.monitoring_active }

/-- Model of `start_profit_monitor`: spawns the monitor thread; the source calls it
only from `__init__`. -/
def start_profit_monitor (m : MonitorSystem) : MonitorSystem :=
  { m with thread_running := true }

/-- The `control_account` action `toggle_monitor` at whole-system level: only
the flag is negated; no thread is started or stopped here. -/
def controlToggleMonitor (m : MonitorSystem) : MonitorSystem :=
  { m with exec := toggleMonitoring m.exec }

/-- Top of the `while self.monitoring_active` loop: a running thread that
observes a cleared flag exits; otherwise nothing changes. -/
def loopTopCheck (m : MonitorSystem) : MonitorSystem :=
  if m.thread_running && !m.exec.monitoring_active then
    { m with thread_running := false }
  else m

/-- Total number of recorded profit-lock events across all symbols. -/
def lockSum (l : List (String × List ProfitLockEvent)) : Nat :=
  (l.map (fun kv => kv.2.length)).sum

/-- States reachable from construction through the executor operations
and the app.py control surface. -/
inductive Reachable : AccountState → Prop where
  | init (cfg : AccountConfig) : Reachable (initState cfg)
  | place (now : String) (gw : Gateway) (cfg : AccountConfig) (symbol side : String)
      {s : AccountState} (h : Reachable s) :
      Reachable (place_order now gw cfg s symbol side).2.1
  | monitor (now : String) (gw : Gateway) (cfg : AccountConfig)
      {s : AccountState} (h : Reachable s) :
      Reachable (monitor_iteration now gw cfg s).1
  | balance (gw : Gateway) (cfg : AccountConfig)
      {s : AccountState} (h : Reachable s) :
      Reachable (get_wallet_balance gw cfg s).2.1
  | pause {s : AccountState} (h : Reachable s) : Reachable (pauseTrading s)
  | resume {s : AccountState} (h : Reachable s) : Reachable (resumeTrading s)
  | toggle {s : AccountState} (h : Reachable s) : Reachable (toggleMonitoring s)

/-! Concrete instances used by witnesses and counterexamples. -/

/-- The numeric parameters of `config.py` `account1`. -/
def cfg0 : AccountConfig :=
  { risk_percentage := 1
    leverage := 5
    profit_lock_threshold := 1/10
    monitoring_active := true
    initial_sl_percentage := 1/20
    initial_tp_percentage := 3/10
    balance_threshold := 100 }

/-- A healthy exchange: ample balance, no open positions, every order
accepted. -/
def gwOk : Gateway :=
  { fetchBalance := .ok 1000
    fetchTicker := fun _ => .ok 50000
    fetchPositionsAll := .ok []
    fetchPositionsFor := fun _ => .ok []
    amountToPrecision := fun _ q => .ok q
    priceToPrecision := fun _ q => q
    createOrder := fun _ => .ok "oid-1" }

/-- Like `gwOk` but every order submission is rejected. -/
def gwReject : Gateway := { gwOk with createOrder := fun _ => .error "order rejected" }

/-- Like `gwOk` but equity is 50 USDT, below `cfg0.balance_threshold`. -/
def gwLow : Gateway := { gwOk with fetchBalance := .ok 50 }

/-- A long position currently in profit. -/
def pLong : Position :=
  { symbol := "BTCUSDT", side := "buy", contracts := 10,
    entryPrice := 100, markPrice := 103, unrealizedPnl := 30 }

/-- A dust position (zero contracts). -/
def pDust : Position :=
  { symbol := "ETHUSDT", side := "buy", contracts := 0,
    entryPrice := 100, markPrice := 100, unrealizedPnl := 0 }

/-- Healthy exchange reporting one dust and one profitable position. -/
def gwMon : Gateway := { gwOk with fetchPositionsAll := .ok [pDust, pLong] }

/-- Low-equity exchange with one open position to flatten. -/
def gwBreak : Gateway := { gwLow with fetchPositionsAll := .ok [pLong] }

/-- C4: every trailing-stop update prices the new trigger at
`markPrice * 0.99` for a long (`side = "buy"`) position and
`markPrice * 1.001` for a short one, and submits a reduce-only stop
order on the opposite side for the full absolute size of the position,
triggered by the mark price. -/
theorem update_stop_loss_trailing (gw : Gateway) (p : Position) :
    (p.side = "buy" → newStopPrice p = p.markPrice * (99/100)) ∧
    (p.side = "sell" → newStopPrice p = p.markPrice * (1001/1000)) ∧
    update_stop_loss gw p = [GCall.createOrder (stopOrderReq gw p)] ∧
    (stopOrderReq gw p).otype = "stop" ∧
    (stopOrderReq gw p).reduceOnly = true ∧
    (stopOrderReq gw p).amount = |p.contracts| ∧
    (stopOrderReq gw p).triggerPrice = some (newStopPrice p) ∧
    (stopOrderReq gw p).triggerBy = some "MarkPrice" ∧
    (p.side = "buy" → (stopOrderReq gw p).side = "sell") ∧
    (p.side = "sell" → (stopOrderReq gw p).side = "buy") := by
  refine ⟨?_, ?_, rfl, rfl, rfl, rfl, rfl, rfl, ?_, ?_⟩ <;> intro h <;>
    simp [newStopPrice, stopOrderReq, h]

/-- Witness for C4 at the concrete long position `pLong`. -/
theorem update_stop_loss_trailing_witness :
    pLong.side = "buy" ∧ newStopPrice pLong = pLong.markPrice * (99/100) :=
  ⟨rfl, (update_stop_loss_trailing gwOk pLong).1 rfl⟩

/-- C6 (amended): with `trading_enabled = false`, `place_order` returns
`{status: "error", message: "Trading is disabled"}` immediately, performs
zero Gateway calls and leaves the whole account state unchanged. -/
theorem place_order_disabled_short_circuit (now : String) (gw : Gateway)
    (cfg : AccountConfig) (s : AccountState) (symbol side : String)
    (h : s.trading_enabled = false) :
    place_order now gw cfg s symbol side =
      ({ status := "error", message := some "Trading is disabled", order := none },
        s, []) := by
  simp [place_order, h]

/-- Counterexample to C6 as stated: the status field of the gate-check result
is `"error"`, not a dedicated `"disabled"` status. -/
theorem place_order_disabled_status_is_error :
    (place_order "t" gwOk cfg0 (pauseTrading (initState cfg0)) "BTCUSDT" "buy").1.status
        = "error" ∧
    ¬ (place_order "t" gwOk cfg0 (pauseTrading (initState cfg0)) "BTCUSDT" "buy").1.status
        = "disabled" ∧
    (place_order "t" gwOk cfg0 (pauseTrading (initState cfg0)) "BTCUSDT" "buy").2.2 = [] := by
  refine ⟨rfl, by decide, rfl⟩

/-- Witness for the amended C6 theorem at a concrete paused account. -/
theorem place_order_disabled_short_circuit_witness :
    (pauseTrading (initState cfg0)).trading_enabled = false ∧
    place_order "t" gwOk cfg0 (pauseTrading (initState cfg0)) "ETHUSDT" "sell" =
      ({ status := "error", message := some "Trading is disabled", order := none },
        pauseTrading (initState cfg0), []) :=
  ⟨rfl, place_order_disabled_short_circuit "t" gwOk cfg0
    (pauseTrading (initState cfg0)) "ETHUSDT" "sell" rfl⟩

/-- C7: bracket prices around reference price `P` — long side
(`side.toLower = "buy"`): `tp = P * (1 + tp%)`, `sl = P * (1 - sl%)`;
short side: `tp = P * (1 - tp%)`, `sl = P * (1 + sl%)`; the submitted
entry order carries exactly these prices (after precision rounding). -/
theorem bracket_price_symmetry (cfg : AccountConfig) (side : String) (P : ℚ) :
    (strLower side = "buy" →
      tpPrice cfg side P = P * (1 + cfg.initial_tp_percentage) ∧
      slPrice cfg side P = P * (1 - cfg.initial_sl_percentage)) ∧
    (strLower side = "sell" →
      tpPrice cfg side P = P * (1 - cfg.initial_tp_percentage) ∧
      slPrice cfg side P = P * (1 + cfg.initial_sl_percentage)) ∧
    (∀ (gw : Gateway) (symbol : String) (sz : ℚ),
      (entryOrderReq gw cfg symbol side sz P).takeProfit =
        some (gw.priceToPrecision symbol (tpPrice cfg side P)) ∧
      (entryOrderReq gw cfg symbol side sz P).stopLoss =
        some (gw.priceToPrecision symbol (slPrice cfg side P))) := by
  refine ⟨?_, ?_, fun gw symbol sz => ⟨rfl, rfl⟩⟩ <;> intro h <;>
    simp [tpPrice, slPrice, h]

/-- Witness for C7 at `side = "buy"`, `P = 100`. -/
theorem bracket_price_symmetry_witness :
    (strLower "buy" = "buy") ∧
    tpPrice cfg0 "buy" 100 = 100 * (1 + cfg0.initial_tp_percentage) :=
  ⟨rfl, ((bracket_price_symmetry cfg0 "buy" 100).1 rfl).1⟩

/-- C8: the size multiplier is 2 exactly when the existing-position probe
found an above-dust position whose side is opposite (case-insensitively)
to the requested side, and 1 otherwise; the probe returns the first
fetched position above the 0.00001 dust threshold; long + "sell" gives 2,
long + "buy" gives 1. -/
theorem size_multiplier_spec :
    (∀ (existing : Option Position) (side : String),
      positionMultiplier existing side = 2 ↔
        ∃ p, existing = some p ∧ is_opposite_side p side = true) ∧
    (∀ (existing : Option Position) (side : String),
      positionMultiplier existing side = 2 ∨ positionMultiplier existing side = 1) ∧
    (∀ (p : Position) (side : String),
      is_opposite_side p side = true ↔
        (p.side = "buy" ∧ strLower side = "sell") ∨
        (p.side = "sell" ∧ strLower side = "buy")) ∧
    (∀ (gw : Gateway) (symbol : String) (ps : List Position),
      gw.fetchPositionsFor symbol = .ok ps →
      (check_existing_position gw symbol).1 =
        .ok (ps.find? (fun p => decide ((1 : ℚ)/100000 < |p.contracts|)))) ∧
    (∀ p : Position, p.side = "buy" → positionMultiplier (some p) "sell" = 2) ∧
    (∀ p : Position, p.side = "buy" → positionMultiplier (some p) "buy" = 1) := by
  refine ⟨?_, ?_, ?_, ?_, ?_, ?_⟩
  · intro existing side
    cases existing with
    | none => simp [positionMultiplier]
    | some p =>
      by_cases h : is_opposite_side p side = true <;>
        simp [positionMultiplier, h]
  · intro existing side
    cases existing with
    | none => right; rfl
    | some p =>
      by_cases h : is_opposite_side p side = true
      · left; simp [positionMultiplier, h]
      · right; simp [positionMultiplier, h]
  · intro p side
    simp [is_opposite_side]
  · intro gw symbol ps h
    simp [check_existing_position, h]
  · intro p h
    have hop : is_opposite_side p "sell" = true := by
      unfold is_opposite_side
      rw [h]
      decide
    simp [positionMultiplier, hop]
  · intro p h
    have hop : is_opposite_side p "buy" = false := by
      unfold is_opposite_side
      rw [h]
      decide
    simp [positionMultiplier, hop]

/-- Witness for C8 at the concrete long position `pLong`. -/
theorem size_multiplier_spec_witness :
    pLong.side = "buy" ∧ positionMultiplier (some pLong) "sell" = 2 ∧
    positionMultiplier (some pLong) "buy" = 1 :=
  ⟨rfl, size_multiplier_spec.2.2.2.2.1 pLong rfl,
    size_multiplier_spec.2.2.2.2.2 pLong rfl⟩

/-- C2 (amended): when equity is below the threshold, the sizer does not
fail — the circuit breaker runs as a side effect (the returned state has
`trading_enabled = false`) but `calculate_position_size` still returns a
valid size/price pair, so the caller goes on to submit the order. -/
theorem low_balance_sizing_still_succeeds (gw : Gateway) (cfg : AccountConfig)
    (s : AccountState) (symbol : String) (m b pr sz : ℚ)
    (hb : gw.fetchBalance = .ok b) (hlt : b < cfg.balance_threshold)
    (ht : gw.fetchTicker symbol = .ok pr)
    (ha : gw.amountToPrecision symbol
      (b * (cfg.risk_percentage / 100) * (cfg.leverage : ℚ) / pr * m) = .ok sz) :
    (calculate_position_size gw cfg s symbol m).1 = .ok (sz, pr) ∧
    (calculate_position_size gw cfg s symbol m).2.1 =
      { s with trading_enabled := false } := by
  unfold calculate_position_size get_wallet_balance
  rw [hb]
  simp [if_pos hlt, ht, ha]

/-- Counterexample to C2 as stated: with equity 50 < threshold 100 the
sizing call returns a valid size instead of failing, and a subsequent
`place_order` still submits successfully. -/
theorem low_balance_sizing_counterexample :
    (50 : ℚ) < cfg0.balance_threshold ∧
    (calculate_position_size gwLow cfg0 (initState cfg0) "BTCUSDT" 1).1 =
      .ok (1/20000, 50000) ∧
    (place_order "t" gwLow cfg0 (initState cfg0) "BTCUSDT" "buy").1.status =
      "success" := by
  refine ⟨by norm_num [cfg0], ?_, ?_⟩
  · simp only [calculate_position_size, get_wallet_balance, gwLow, gwOk,
      close_all_positions, closeLoop, cfg0, initState]
    norm_num
  · simp only [place_order, check_existing_position, calculate_position_size,
      get_wallet_balance, set_leverage, close_all_positions, closeLoop,
      positionMultiplier, gwLow, gwOk, cfg0, initState]
    norm_num

/-- Witness for the amended C2 theorem at the concrete low-equity exchange. -/
theorem low_balance_sizing_still_succeeds_witness :
    gwLow.fetchBalance = .ok 50 ∧ (50 : ℚ) < cfg0.balance_threshold ∧
    (calculate_position_size gwLow cfg0 (initState cfg0) "ETHUSDT" 2).2.1 =
      { initState cfg0 with trading_enabled := false } :=
  ⟨rfl, by norm_num [cfg0],
    (low_balance_sizing_still_succeeds gwLow cfg0 (initState cfg0) "ETHUSDT" 2 50 50000
      (50 * (cfg0.risk_percentage / 100) * (cfg0.leverage : ℚ) / 50000 * 2)
      rfl (by norm_num [cfg0]) rfl rfl).2⟩

/-- In a run of the flatten loop where every order is accepted, exactly
one flatten order is submitted per nonzero position, in fetch order. -/
lemma closeLoop_all_ok (gw : Gateway) :
    ∀ ps : List Position,
    (∀ p ∈ ps, ∃ oid, gw.createOrder (flattenOrderReq p) = .ok oid) →
    closeLoop gw ps =
      (ps.filter (fun p => decide ((0 : ℚ) < |p.contracts|))).map
        (fun p => GCall.createOrder (flattenOrderReq p)) := by
  intro ps
  induction ps with
  | nil => intro _; simp [closeLoop]
  | cons p rest ih =>
    intro h
    obtain ⟨oid, hoid⟩ := h p (by simp)
    have hrest := ih (fun q hq => h q (by simp [hq]))
    conv_lhs => unfold closeLoop
    by_cases hc : (0 : ℚ) < |p.contracts|
    · rw [if_pos hc, hoid]
      have hne : p.contracts ≠ 0 := abs_pos.mp hc
      simp [hrest, List.filter_cons, hc, hne]
    · rw [if_neg hc, hrest]
      have h0 : p.contracts = 0 :=
        abs_eq_zero.mp (le_antisymm (not_lt.mp hc) (abs_nonneg _))
      simp [List.filter_cons, h0]

/-- C5: once the fetched equity is strictly below the threshold, the
breaker flattens (one reduce-only market order per nonzero open position,
when the Gateway accepts them) and the resulting state has
`trading_enabled = false` — unconditionally, even when fetching positions
or submitting a flatten order fails. -/
theorem balance_breaker_flattens_and_disables (gw : Gateway) (cfg : AccountConfig)
    (s : AccountState) (b : ℚ)
    (hb : gw.fetchBalance = .ok b) (hlt : b < cfg.balance_threshold) :
    (get_wallet_balance gw cfg s).2.1 = { s with trading_enabled := false } ∧
    (get_wallet_balance gw cfg s).2.1.trading_enabled = false ∧
    (∀ p : Position, (flattenOrderReq p).reduceOnly = true ∧
      (flattenOrderReq p).otype = "market" ∧
      (flattenOrderReq p).amount = |p.contracts| ∧
      (p.side = "buy" → (flattenOrderReq p).side = "sell")) ∧
    (∀ ps : List Position, gw.fetchPositionsAll = .ok ps →
      (∀ p ∈ ps, ∃ oid, gw.createOrder (flattenOrderReq p) = .ok oid) →
      (get_wallet_balance gw cfg s).2.2 =
        GCall.fetchBalance :: GCall.fetchPositions none ::
          (ps.filter (fun p => decide ((0 : ℚ) < |p.contracts|))).map
            (fun p => GCall.createOrder (flattenOrderReq p))) := by
  unfold get_wallet_balance
  rw [hb]
  refine ⟨by simp [if_pos hlt], by simp [if_pos hlt],
    fun p => ⟨rfl, rfl, rfl, fun hside => by simp [flattenOrderReq, hside]⟩, ?_⟩
  intro ps hps hok
  simp [if_pos hlt, close_all_positions, hps, closeLoop_all_ok gw ps hok]

/-- Witness for C5 at the concrete low-equity exchange holding `pLong`. -/
theorem balance_breaker_flattens_and_disables_witness :
    (50 : ℚ) < cfg0.balance_threshold ∧
    (get_wallet_balance gwBreak cfg0 (initState cfg0)).2.1.trading_enabled = false ∧
    (get_wallet_balance gwBreak cfg0 (initState cfg0)).2.2 =
      [GCall.fetchBalance, GCall.fetchPositions none,
        GCall.createOrder (flattenOrderReq pLong)] := by
  have h := balance_breaker_flattens_and_disables gwBreak cfg0 (initState cfg0) 50
    rfl (by norm_num [cfg0])
  refine ⟨by norm_num [cfg0], h.2.1, ?_⟩
  have h4 := h.2.2.2 [pLong] rfl (fun p _ => ⟨"oid-1", rfl⟩)
  rw [h4]
  norm_num [pLong]

/-- Each event recorded under a symbol key raises the total event count
across all keys by exactly one. -/
lemma addLock_lockSum (l : List (String × List ProfitLockEvent)) (symbol : String)
    (e : ProfitLockEvent) : lockSum (addLock l symbol e) = lockSum l + 1 := by
  induction l with
  | nil => simp [addLock, lockSum]
  | cons kv rest ih =>
    obtain ⟨k, es⟩ := kv
    unfold addLock
    by_cases h : k = symbol
    · rw [if_pos h]
      simp [lockSum]
      omega
    · rw [if_neg h]
      simp only [lockSum, List.map_cons, List.sum_cons] at ih ⊢
      omega

/-- A position at or below the dust threshold is skipped entirely by the
monitor body. -/
lemma processPositions_dust (now : String) (gw : Gateway) (cfg : AccountConfig)
    (s : AccountState) (p : Position) (rest : List Position)
    (hd : |p.contracts| ≤ (1 : ℚ)/100000) :
    processPositions now gw cfg s (p :: rest) = processPositions now gw cfg s rest := by
  conv_lhs => unfold processPositions
  rw [if_pos hd]

/-- An above-dust position at or above the profit threshold gets the
trailing-stop submission and the profit-lock record. -/
lemma processPositions_hit (now : String) (gw : Gateway) (cfg : AccountConfig)
    (s : AccountState) (p : Position) (rest : List Position)
    (hp : ¬ |p.contracts| ≤ (1 : ℚ)/100000)
    (h : profitPercentage cfg p ≥ cfg.profit_lock_threshold * 100) :
    processPositions now gw cfg s (p :: rest) =
      ((processPositions now gw cfg
          (record_profit_lock now s p.symbol (profitPercentage cfg p)) rest).1,
        GCall.createOrder (stopOrderReq gw p) ::
          (processPositions now gw cfg
            (record_profit_lock now s p.symbol (profitPercentage cfg p)) rest).2) := by
  conv_lhs => unfold processPositions
  rw [if_neg hp, if_pos h]
  dsimp only
  rcases hpp : processPositions now gw cfg
    (record_profit_lock now s p.symbol (profitPercentage cfg p)) rest with ⟨s2, cs⟩
  rfl

/-- An above-dust position below the profit threshold is left alone. -/
lemma processPositions_miss (now : String) (gw : Gateway) (cfg : AccountConfig)
    (s : AccountState) (p : Position) (rest : List Position)
    (hp : ¬ |p.contracts| ≤ (1 : ℚ)/100000)
    (h : ¬ profitPercentage cfg p ≥ cfg.profit_lock_threshold * 100) :
    processPositions now gw cfg s (p :: rest) = processPositions now gw cfg s rest := by
  conv_lhs => unfold processPositions
  rw [if_neg hp, if_neg h]

/-- A successful positions fetch makes the monitor iteration run the
per-position body over the fetched list. -/
lemma monitor_iteration_ok (now : String) (gw : Gateway) (cfg : AccountConfig)
    (s : AccountState) (ps : List Position) (hf : gw.fetchPositionsAll = .ok ps) :
    monitor_iteration now gw cfg s =
      ((processPositions now gw cfg s ps).1,
        GCall.fetchPositions none :: (processPositions now gw cfg s ps).2) := by
  unfold monitor_iteration
  rw [hf]

/-- Condition under which the monitor body acts on a fetched position:
above the 0.00001 dust threshold and profit percentage at or above
`profit_lock_threshold * 100` (lines 189 and 201). -/
def triggersLock (cfg : AccountConfig) (p : Position) : Bool :=
  decide (¬ |p.contracts| ≤ (1 : ℚ)/100000 ∧
    profitPercentage cfg p ≥ cfg.profit_lock_threshold * 100)

/-- Closed form of the monitor body over an arbitrary fetched list: the
state is folded through `record_profit_lock` over exactly the acting
positions, in fetch order, and exactly one trailing-stop submission is
made per acting position. -/
lemma processPositions_spec (now : String) (gw : Gateway) (cfg : AccountConfig) :
    ∀ (ps : List Position) (s : AccountState),
      processPositions now gw cfg s ps =
        ((ps.filter (triggersLock cfg)).foldl
            (fun t p => record_profit_lock now t p.symbol (profitPercentage cfg p)) s,
          (ps.filter (triggersLock cfg)).map
            (fun p => GCall.createOrder (stopOrderReq gw p))) := by
  intro ps
  induction ps with
  | nil =>
    intro s
    simp [processPositions]
  | cons p rest ih =>
    intro s
    by_cases hd : |p.contracts| ≤ (1 : ℚ)/100000
    · rw [processPositions_dust now gw cfg s p rest hd,
        List.filter_cons_of_neg (by
          simp only [triggersLock, decide_eq_true_eq, not_and, not_le, not_lt]
          exact fun hlt => absurd hlt (not_lt.mpr (by simpa using hd))), ih s]
    · by_cases ht : profitPercentage cfg p ≥ cfg.profit_lock_threshold * 100
      · rw [processPositions_hit now gw cfg s p rest hd ht,
          List.filter_cons_of_pos (by
            simp only [triggersLock, decide_eq_true_eq]
            exact ⟨hd, ht⟩),
          ih (record_profit_lock now s p.symbol (profitPercentage cfg p))]
        simp [List.foldl_cons]
      · rw [processPositions_miss now gw cfg s p rest hd ht,
          List.filter_cons_of_neg (by
            simp only [triggersLock, decide_eq_true_eq, not_and]
            exact fun _ => ht), ih s]

/-- C3: in every monitor iteration, over whatever list of positions the
fetch returns, each fetched position is acted on iff it is above the
0.00001 dust threshold and its profit percentage — computed as
`(unrealizedPnl / (entryPrice * size)) * 100 * leverage` — is at least
`profit_lock_threshold * 100`: the resulting state records one
profit-lock event per acting position (in fetch order, counter +1 and
one event appended under the symbol key each), the call trace holds
exactly one trailing-stop submission per acting position, and positions
at or below the dust threshold (or below the profit threshold)
contribute neither a call nor a state change. -/
theorem monitor_profit_lock_spec (now : String) (gw : Gateway) (cfg : AccountConfig)
    (s : AccountState) (ps : List Position)
    (hf : gw.fetchPositionsAll = .ok ps) :
    (∀ p : Position, triggersLock cfg p = true ↔
      ¬ |p.contracts| ≤ (1 : ℚ)/100000 ∧
        (p.unrealizedPnl / (p.entryPrice * |p.contracts|)) * 100 * (cfg.leverage : ℚ) ≥
          cfg.profit_lock_threshold * 100) ∧
    (monitor_iteration now gw cfg s).1 =
      (ps.filter (triggersLock cfg)).foldl
        (fun t p => record_profit_lock now t p.symbol (profitPercentage cfg p)) s ∧
    (monitor_iteration now gw cfg s).2 =
      GCall.fetchPositions none ::
        (ps.filter (triggersLock cfg)).map
          (fun p => GCall.createOrder (stopOrderReq gw p)) ∧
    (∀ (t : AccountState) (sym : String) (pp : ℚ),
      (record_profit_lock now t sym pp).total_profit_locks =
        t.total_profit_locks + 1 ∧
      lockSum (record_profit_lock now t sym pp).profit_locks =
        lockSum t.profit_locks + 1) := by
  refine ⟨fun p => by simp [triggersLock, profitPercentage], ?_, ?_,
    fun t sym pp => ⟨rfl, by simp [record_profit_lock, addLock_lockSum]⟩⟩
  · rw [monitor_iteration_ok now gw cfg s ps hf, processPositions_spec now gw cfg ps s]
  · rw [monitor_iteration_ok now gw cfg s ps hf, processPositions_spec now gw cfg ps s]

/-- Witness for C3 at `gwMon` (fetch returns `pDust` then `pLong`;
profit 15% ≥ 10%, so only `pLong` acts). -/
theorem monitor_profit_lock_spec_witness :
    (monitor_iteration "t" gwMon cfg0 (initState cfg0)).2 =
      [GCall.fetchPositions none, GCall.createOrder (stopOrderReq gwMon pLong)] := by
  have h := (monitor_profit_lock_spec "t" gwMon cfg0 (initState cfg0)
    [pDust, pLong] rfl).2.2.1
  rw [h]
  norm_num [triggersLock, profitPercentage, pDust, pLong, cfg0, List.filter_cons]

/-- Config identical to `cfg0` except monitoring starts disabled. -/
def cfgMonOff : AccountConfig := { cfg0 with monitoring_active := false }

/-- C9 (amended): the toggle-monitor control action only negates
`monitoring_active` — it never starts or stops the monitor loop; the loop
is spawned only at construction, when the config enables monitoring; a
running loop that observes a cleared flag exits at its next loop-top
check, and with the flag set the loop-top check changes nothing. -/
theorem toggle_monitor_flag_only (m : MonitorSystem) :
    (controlToggleMonitor m).exec.monitoring_active = !m.exec.monitoring_active ∧
    (controlToggleMonitor m).thread_running = m.thread_running ∧
    (controlToggleMonitor m).exec.trading_enabled = m.exec.trading_enabled ∧
    (∀ cfg : AccountConfig, (initExecutor cfg).thread_running = cfg.monitoring_active) ∧
    (m.thread_running = true → m.exec.monitoring_active = false →
      (loopTopCheck m).thread_running = false) ∧
    (m.exec.monitoring_active = true → loopTopCheck m = m) := by
  refine ⟨rfl, rfl, rfl, fun _ => rfl, ?_, ?_⟩
  · intro h1 h2
    simp [loopTopCheck, h1, h2]
  · intro h1
    simp [loopTopCheck, h1]

/-- Counterexample to C9 as stated: construct with monitoring off (so no
thread is spawned), then toggle monitoring on — the flag becomes true but
no monitor loop is running afterwards, since the control action never
starts one. -/
theorem toggle_monitor_counterexample :
    (controlToggleMonitor (initExecutor cfgMonOff)).exec.monitoring_active = true ∧
    (controlToggleMonitor (initExecutor cfgMonOff)).thread_running = false :=
  ⟨rfl, rfl⟩

/-- Witness for the amended C9 theorem: a running loop whose flag was
cleared stops at the loop-top check. -/
theorem toggle_monitor_flag_only_witness :
    (MonitorSystem.mk (initState cfgMonOff) true).thread_running = true ∧
    (MonitorSystem.mk (initState cfgMonOff) true).exec.monitoring_active = false ∧
    (loopTopCheck (MonitorSystem.mk (initState cfgMonOff) true)).thread_running = false :=
  ⟨rfl, rfl, (toggle_monitor_flag_only (MonitorSystem.mk (initState cfgMonOff) true)).2.2.2.2.1 rfl rfl⟩

/-- The balance check either leaves the state intact or only clears the
trading flag. -/
lemma get_wallet_balance_state (gw : Gateway) (cfg : AccountConfig) (s : AccountState) :
    (get_wallet_balance gw cfg s).2.1 = s ∨
    (get_wallet_balance gw cfg s).2.1 = { s with trading_enabled := false } := by
  unfold get_wallet_balance
  cases hb : gw.fetchBalance with
  | error e => exact .inl rfl
  | ok b =>
    by_cases hlt : b < cfg.balance_threshold
    · right
      simp [if_pos hlt]
    · left
      simp [if_neg hlt]

/-- Sizing either leaves the state intact or only clears the trading flag
(via the embedded balance check). -/
lemma calculate_position_size_state (gw : Gateway) (cfg : AccountConfig)
    (s : AccountState) (symbol : String) (m : ℚ) :
    (calculate_position_size gw cfg s symbol m).2.1 = s ∨
    (calculate_position_size gw cfg s symbol m).2.1 =
      { s with trading_enabled := false } := by
  have hw := get_wallet_balance_state gw cfg s
  unfold calculate_position_size
  split
  next e s1 c1 heq =>
    rw [heq] at hw
    simpa using hw
  next b s1 c1 heq =>
    rw [heq] at hw
    simp only at hw
    split
    next e => simpa using hw
    next pr =>
      split
      next e => simpa using hw
      next sz => simpa using hw

/-- C1 (amended): past the gate check, a successful placement appends
exactly one TradeRecord to `trade_history` while a failed one returns
`{status: error, message}` and leaves `trade_history` unchanged; in both
cases `failed_trades` is never written (the source never appends to it). -/
theorem place_order_record_exclusive (now : String) (gw : Gateway)
    (cfg : AccountConfig) (s : AccountState) (symbol side : String)
    (h : s.trading_enabled = true) :
    ((place_order now gw cfg s symbol side).1.status = "success" ∧
      (∃ tr, (place_order now gw cfg s symbol side).2.1.trade_history =
        s.trade_history ++ [tr]) ∨
     (place_order now gw cfg s symbol side).1.status = "error" ∧
      (∃ msg, (place_order now gw cfg s symbol side).1.message = some msg) ∧
      (place_order now gw cfg s symbol side).2.1.trade_history = s.trade_history) ∧
    (place_order now gw cfg s symbol side).2.1.failed_trades = s.failed_trades := by
  unfold place_order
  rw [if_neg (by simp [h])]
  split
  next e c1 heq =>
    exact ⟨.inr ⟨rfl, ⟨e, rfl⟩, rfl⟩, rfl⟩
  next existing c1 heq =>
    split
    next e s2 c3 heq2 =>
      have hw := calculate_position_size_state gw cfg s symbol
        (positionMultiplier existing side)
      rw [heq2] at hw
      simp only at hw
      rcases hw with hw | hw <;> rw [hw] <;>
        exact ⟨.inr ⟨rfl, ⟨e, rfl⟩, rfl⟩, rfl⟩
    next sz pr s2 c3 heq2 =>
      have hw := calculate_position_size_state gw cfg s symbol
        (positionMultiplier existing side)
      rw [heq2] at hw
      simp only at hw
      split
      next e he =>
        rcases hw with hw | hw <;> rw [hw] <;>
          exact ⟨.inr ⟨rfl, ⟨e, rfl⟩, rfl⟩, rfl⟩
      next ord hord =>
        rcases hw with hw | hw <;> rw [hw] <;>
          exact ⟨.inl ⟨rfl, ⟨logRecord now symbol side sz pr
            (tpPrice cfg side pr) (slPrice cfg side pr) ord, rfl⟩⟩, rfl⟩

/-- Counterexample to C1 as stated: with every step succeeding except the
final order submission, `place_order` returns an error result yet appends
nothing to `failed_trades` (nor to `trade_history`) — no list receives an
entry. -/
theorem place_order_failure_appends_nothing :
    (place_order "t" gwReject cfg0 (initState cfg0) "BTCUSDT" "buy").1.status = "error" ∧
    (place_order "t" gwReject cfg0 (initState cfg0) "BTCUSDT" "buy").2.1.failed_trades = [] ∧
    (place_order "t" gwReject cfg0 (initState cfg0) "BTCUSDT" "buy").2.1.trade_history = [] := by
  refine ⟨?_, ?_, ?_⟩ <;>
    simp only [place_order, check_existing_position, calculate_position_size,
      get_wallet_balance, set_leverage, close_all_positions, closeLoop,
      positionMultiplier, gwReject, gwLow, gwOk, cfg0, initState] <;>
    norm_num

/-- Witness for the amended C1 theorem on a fully successful placement. -/
theorem place_order_record_exclusive_witness :
    (initState cfg0).trading_enabled = true ∧
    (place_order "t" gwOk cfg0 (initState cfg0) "BTCUSDT" "buy").2.1.failed_trades =
      (initState cfg0).failed_trades :=
  ⟨rfl, (place_order_record_exclusive "t" gwOk cfg0 (initState cfg0)
    "BTCUSDT" "buy" rfl).2⟩

/-- Lemma that `place_order` never touches the profit-lock map or its counter. -/
lemma place_order_locks (now : String) (gw : Gateway) (cfg : AccountConfig)
    (s : AccountState) (symbol side : String) :
    (place_order now gw cfg s symbol side).2.1.profit_locks = s.profit_locks ∧
    (place_order now gw cfg s symbol side).2.1.total_profit_locks =
      s.total_profit_locks := by
  unfold place_order
  by_cases h : s.trading_enabled = false
  · rw [if_pos h]
    exact ⟨rfl, rfl⟩
  · rw [if_neg h]
    split
    next e c1 heq => exact ⟨rfl, rfl⟩
    next existing c1 heq =>
      split
      next e s2 c3 heq2 =>
        have hw := calculate_position_size_state gw cfg s symbol
          (positionMultiplier existing side)
        rw [heq2] at hw
        simp only at hw
        rcases hw with hw | hw <;> rw [hw] <;> exact ⟨rfl, rfl⟩
      next sz pr s2 c3 heq2 =>
        have hw := calculate_position_size_state gw cfg s symbol
          (positionMultiplier existing side)
        rw [heq2] at hw
        simp only at hw
        split
        next e =>
          rcases hw with hw | hw <;> rw [hw] <;> exact ⟨rfl, rfl⟩
        next ord =>
          rcases hw with hw | hw <;> rw [hw] <;> exact ⟨rfl, rfl⟩

/-- The monitor body preserves the counter/mapping agreement: every
trigger appends one event and adds one to the counter. -/
lemma processPositions_inv (now : String) (gw : Gateway) (cfg : AccountConfig) :
    ∀ (ps : List Position) (s : AccountState),
      lockSum s.profit_locks = s.total_profit_locks →
      lockSum (processPositions now gw cfg s ps).1.profit_locks =
        (processPositions now gw cfg s ps).1.total_profit_locks := by
  intro ps
  induction ps with
  | nil =>
    intro s h
    simpa [processPositions] using h
  | cons p rest ih =>
    intro s h
    by_cases hd : |p.contracts| ≤ (1 : ℚ)/100000
    · rw [processPositions_dust now gw cfg s p rest hd]
      exact ih s h
    · by_cases ht : profitPercentage cfg p ≥ cfg.profit_lock_threshold * 100
      · rw [processPositions_hit now gw cfg s p rest hd ht]
        exact ih _ (by simp [record_profit_lock, addLock_lockSum, h])
      · rw [processPositions_miss now gw cfg s p rest hd ht]
        exact ih s h

/-- One monitor iteration preserves the counter/mapping agreement. -/
lemma monitor_iteration_inv (now : String) (gw : Gateway) (cfg : AccountConfig)
    (s : AccountState) (h : lockSum s.profit_locks = s.total_profit_locks) :
    lockSum (monitor_iteration now gw cfg s).1.profit_locks =
      (monitor_iteration now gw cfg s).1.total_profit_locks := by
  unfold monitor_iteration
  cases hf : gw.fetchPositionsAll with
  | error e => simpa using h
  | ok ps =>
    dsimp only
    have hinv := processPositions_inv now gw cfg ps s h
    rcases hpp : processPositions now gw cfg s ps with ⟨s1, cs⟩
    rw [hpp] at hinv
    simpa using hinv

/-- C10: in every reachable account state, `total_profit_locks` equals
the total number of profit-lock events stored across all symbols. -/
theorem total_profit_locks_invariant {s : AccountState} (h : Reachable s) :
    lockSum s.profit_locks = s.total_profit_locks := by
  induction h with
  | init cfg => rfl
  | @place now gw cfg symbol side s1 h ih =>
    have hp := place_order_locks now gw cfg s1 symbol side
    rw [hp.1, hp.2]
    exact ih
  | @monitor now gw cfg s1 h ih => exact monitor_iteration_inv now gw cfg s1 ih
  | @balance gw cfg s1 h ih =>
    rcases get_wallet_balance_state gw cfg s1 with hb | hb <;> rw [hb] <;> exact ih
  | pause h ih => exact ih
  | resume h ih => exact ih
  | toggle h ih => exact ih

/-- Witness for C10 at a freshly constructed account. -/
theorem total_profit_locks_invariant_witness :
    lockSum (initState cfg0).profit_locks = (initState cfg0).total_profit_locks :=
  total_profit_locks_invariant (Reachable.init cfg0)

end TradingBot
